import Mathlib

/-!
# libdata-source: shallow embedding and verification

A shallow embedding of the core of `libdata-source` (baccuslab), the
library driving MEA acquisition data sources, together with proofs about
the embedded operations.

The embedding covers:

* the `Electrode` record and its packed byte codec
  (`include/configuration.h`);
* the controller-boundary wire codec `datasource::serialize` /
  `datasource::deserialize` (`src/data-source.cc`);
* the `HidensSource` protocol client: the lifecycle transitions
  (`initialize` / `startStream` / `stopStream`), `set("plug", ...)`,
  electrode-configuration retrieval, binary frame decoding, the
  FPGA configuration upload task and its completion handler, and the
  error-handling transition inherited from `BaseSource`
  (`src/hidens-source.cc`, `include/base-source.h`).

Modelling conventions:

* machine integers are `Nat` with explicit `% 2^w` where overflow or
  narrowing matters; C++ `int` is `Int`;
* C++ `float` values are `Option ℚ`: `none` models NaN (the only
  non-finite value the code distinguishes, via `std::isnan`), `some q` a
  finite value.  The comparisons the code performs (`<`, `>`) agree with
  rational order on represented values and are false on NaN;
* Qt strings are Lean `String`s; the few Qt string operations the code
  uses (`split`, `startsWith`, `toInt`, `chop`) are re-implemented over
  `String.toList` so that every definition is executable and
  kernel-reducible;
* blocking socket replies are environment inputs: `none` models a
  `waitForReadyRead` timeout, `some r` a received line (already stripped
  of its trailing newline, as `getHidensReply` does);
* `QDateTime` fields only matter through being set or null, so they are
  modelled as `Bool`.
-/

/-! ## String utilities (models of the Qt string operations used) -/

/-- The apostrophe character, used in the state-machine error messages. -/
def aposChar : Char := Char.ofNat 39

/-- The apostrophe as a string. -/
def apos : String := String.singleton aposChar

/-- Split a character list at every occurrence of `sep`, keeping empty
parts.  Models `QString::split(QChar)` (and `String::splitOn` for a
one-character separator), which returns one more part than there are
separators. -/
def splitCharAux (sep : Char) : List Char → List Char → List String
  | [], acc => [String.mk acc.reverse]
  | c :: cs, acc =>
    if c = sep then String.mk acc.reverse :: splitCharAux sep cs []
    else splitCharAux sep cs (c :: acc)

/-- Split a string at every occurrence of the character `sep`. -/
def splitChar (sep : Char) (s : String) : List String :=
  splitCharAux sep s.toList []

/-- Split a string at every character satisfying `p`, keeping empty
parts.  Models `QString::split(QRegularExpression)` where the pattern
matches single characters. -/
def splitPredAux (p : Char → Bool) : List Char → List Char → List String
  | [], acc => [String.mk acc.reverse]
  | c :: cs, acc =>
    if p c then String.mk acc.reverse :: splitPredAux p cs []
    else splitPredAux p cs (c :: acc)

/-- Split a string at every character satisfying `p`. -/
def splitPred (p : Char → Bool) (s : String) : List String :=
  splitPredAux p s.toList []

/-- `qStartsWith s pre` models `QByteArray::startsWith` /
`QString::startsWith`. -/
def qStartsWith (s pre : String) : Bool :=
  pre.toList.isPrefixOf s.toList

/-- Drop leading and trailing whitespace, as the Qt numeric conversions
do before parsing. -/
def trimChars (cs : List Char) : List Char :=
  ((cs.dropWhile Char.isWhitespace).reverse.dropWhile Char.isWhitespace).reverse

/-- Parse a non-empty all-digit character list into a `Nat`. -/
def digitsToNat : List Char → Option Nat
  | [] => none
  | cs =>
    if cs.all Char.isDigit then
      some (cs.foldl (fun n c => n * 10 + (c.toNat - 48)) 0)
    else none

/-- Model of `QString::toInt` returning `none` on failure: surrounding
whitespace is skipped, an optional sign is allowed, the rest must be
digits, and the value must fit in a 32-bit `int`. -/
def qToIntOpt (s : String) : Option Int :=
  match trimChars s.toList with
  | [] => none
  | c :: cs =>
    if c = Char.ofNat 45 then -- minus sign
      (digitsToNat cs).bind fun n =>
        if n ≤ 2 ^ 31 then some (-(n : Int)) else none
    else if c = Char.ofNat 43 then -- plus sign
      (digitsToNat cs).bind fun n =>
        if n < 2 ^ 31 then some (n : Int) else none
    else
      (digitsToNat (c :: cs)).bind fun n =>
        if n < 2 ^ 31 then some (n : Int) else none

/-- Model of `QString::toInt()` proper: yields `0` when the conversion
fails, as Qt does. -/
def qToInt (s : String) : Int :=
  (qToIntOpt s).getD 0

/-- Model of `QByteArray::toUInt` (with its `ok` flag as `Option`):
optional `+` sign, digits, value below `2^32`. -/
def qToUIntOpt (s : String) : Option Nat :=
  match trimChars s.toList with
  | [] => none
  | c :: cs =>
    if c = Char.ofNat 43 then
      (digitsToNat cs).bind fun n => if n < 2 ^ 32 then some n else none
    else
      (digitsToNat (c :: cs)).bind fun n => if n < 2 ^ 32 then some n else none

/-- Model of `QString::toFloat` (with its `ok` flag as `Option`) for the
plain decimal strings the HiDens server sends: optional sign, integer
digits, optional fractional digits.  Exponent notation and the special
float spellings are not modelled; only success/failure and the exact
value of plain decimals are relied on. -/
def qToFloatOpt (s : String) : Option ℚ :=
  let parseUnsigned : List Char → Option ℚ := fun cs =>
    match splitPredAux (fun c => c = Char.ofNat 46) cs [] with
    | [intPart] => (digitsToNat intPart.toList).map (fun n => (n : ℚ))
    | [intPart, fracPart] =>
      if intPart.toList.isEmpty then
        (digitsToNat fracPart.toList).map (fun f =>
          (f : ℚ) / (10 : ℚ) ^ fracPart.length)
      else if fracPart.toList.isEmpty then
        (digitsToNat intPart.toList).map (fun n => (n : ℚ))
      else
        (digitsToNat intPart.toList).bind fun n =>
          (digitsToNat fracPart.toList).map fun f =>
            (n : ℚ) + (f : ℚ) / (10 : ℚ) ^ fracPart.length
    | _ => none
  match trimChars s.toList with
  | [] => none
  | c :: cs =>
    if c = Char.ofNat 45 then (parseUnsigned cs).map Neg.neg
    else if c = Char.ofNat 43 then parseUnsigned cs
    else parseUnsigned (c :: cs)

/-- First character of a string as a Latin-1 code, `0` for the empty
string.  Models `positionList[5][0].toLatin1()`. -/
def firstCharCode (s : String) : Nat :=
  match s.toList with
  | [] => 0
  | c :: _ => c.toNat % 256

/-- `quint32` narrowing of a C++ `int` value (conversion modulo `2^32`). -/
def u32OfInt (z : Int) : Nat :=
  (z.emod 4294967296).toNat

/-- `quint16` narrowing of a C++ `int` value (conversion modulo `2^16`). -/
def u16OfInt (z : Int) : Nat :=
  (z.emod 65536).toNat

/-! ## Byte-level codec primitives

`std::memcpy` of the Qt fixed-width integer types on the little-endian
target of the library is modelled by explicit little-endian byte lists. -/

/-- Little-endian bytes of a 16-bit unsigned value. -/
def u16le (n : Nat) : List Nat :=
  [n % 256, n / 256 % 256]

/-- Little-endian bytes of a 32-bit unsigned value. -/
def u32le (n : Nat) : List Nat :=
  [n % 256, n / 256 % 256, n / 65536 % 256, n / 16777216 % 256]

/-- Read one byte of a buffer (in-range for all uses proved about). -/
def byteD (b : List Nat) (i : Nat) : Nat :=
  b.getD i 0 % 256

/-- Read a little-endian 16-bit value at offset `off`. -/
def rd16 (b : List Nat) (off : Nat) : Nat :=
  byteD b off + 256 * byteD b (off + 1)

/-- Read a little-endian 32-bit value at offset `off`. -/
def rd32 (b : List Nat) (off : Nat) : Nat :=
  byteD b off + 256 * byteD b (off + 1) + 65536 * byteD b (off + 2) +
    16777216 * byteD b (off + 3)

/-! ## `Electrode` (`include/configuration.h`) -/

/-- A single HiDens chip electrode (`struct Electrode`).  Field types in
the source: `index`, `xpos`, `ypos` are `quint32`; `x`, `y` are
`quint16`; `label` is `quint8`. -/
@[ext]
structure Electrode where
  index : Nat
  xpos : Nat
  x : Nat
  ypos : Nat
  y : Nat
  label : Nat
  deriving DecidableEq, Repr

/-- The well-formedness carried by the C++ fixed-width field types. -/
def Electrode.WF (e : Electrode) : Prop :=
  e.index < 2 ^ 32 ∧ e.xpos < 2 ^ 32 ∧ e.x < 2 ^ 16 ∧
    e.ypos < 2 ^ 32 ∧ e.y < 2 ^ 16 ∧ e.label < 2 ^ 8

instance (e : Electrode) : Decidable e.WF := by
  unfold Electrode.WF; infer_instance

/-- `Electrode::bytesize()`: `3 * sizeof(quint32) + 2 * sizeof(quint16)
+ sizeof(quint8)`, i.e. `17`. -/
def Electrode.bytesize : Nat :=
  3 * 4 + 2 * 2 + 1

/-- `Electrode::serialize()`: the packed byte array of the six fields in
declaration order, `memcpy`ed at offsets 0, 4, 8, 10, 14, 16. -/
def Electrode.serializeBytes (e : Electrode) : List Nat :=
  u32le e.index ++ u32le e.xpos ++ u16le e.x ++ u32le e.ypos ++
    u16le e.y ++ [e.label % 256]

/-- `Electrode::deserialize()`: reads the six fields back from the same
packed offsets 0, 4, 8, 10, 14, 16. -/
def Electrode.deserializeBytes (b : List Nat) : Electrode :=
  { index := rd32 b 0
    xpos := rd32 b 4
    x := rd16 b 8
    ypos := rd32 b 10
    y := rd16 b 14
    label := byteD b 16 }

/-! ## Wire codec (`src/data-source.cc`, namespace `datasource`) -/

/-- Parameter names serialized as raw UTF-8 text. -/
def stringParams : List String :=
  ["trigger", "connect-time", "start-time", "source-type", "device-type",
    "state", "location", "configuration-file"]

/-- Parameter names serialized as a 4-byte unsigned integer. -/
def uintParams : List String :=
  ["nchannels", "plug", "chip-id", "read-interval"]

/-- Parameter names serialized as a 4-byte float. -/
def floatParams : List String :=
  ["gain", "adc-range", "sample-rate"]

/-- `sizeof(Electrode)` under the standard ABI of the library targets:
the struct `{quint32; quint32; quint16; quint32; quint16; quint8}` has
4-byte alignment, giving 2 padding bytes after `x` (offset 10–11) and 1
trailing padding byte (offset 19), hence 20 bytes — one more than
`Electrode::bytesize() = 19`. -/
def sizeofElectrode : Nat := 20

/-- The raw in-memory bytes of one `Electrode` struct, as `memcpy` in
`datasource::serialize` copies them: fields at their ABI offsets
(0, 4, 8, 12, 16, 18) with the three padding bytes `p1 p2 p3`
(offsets 10, 11, 19) holding indeterminate values. -/
def electrodeRawBytes (e : Electrode) (p1 p2 p3 : Nat) : List Nat :=
  u32le e.index ++ u32le e.xpos ++ u16le e.x ++ [p1 % 256, p2 % 256] ++
    u32le e.ypos ++ u16le e.y ++ [e.label % 256, p3 % 256]

/-- The records part of the `"configuration"` branch of
`datasource::serialize`: `memcpy(buffer + 4, config.data(),
size * sizeof(Electrode))`.  `pad i` supplies the three indeterminate
padding bytes of the `i`-th struct. -/
def rawRecords : List Electrode → Nat → (Nat → Nat × Nat × Nat) → List Nat
  | [], _, _ => []
  | e :: rest, i, pad =>
    electrodeRawBytes e (pad i).1 (pad i).2.1 (pad i).2.2 ++
      rawRecords rest (i + 1) pad

/-- The `param == "configuration"` branch of `datasource::serialize`:
a 4-byte element count followed by the raw structs. -/
def serializeConfigurationDS (cfg : List Electrode)
    (pad : Nat → Nat × Nat × Nat) : List Nat :=
  u32le cfg.length ++ rawRecords cfg 0 pad

/-- Decoded values produced by `datasource::deserialize` (the `QVariant`
it returns).  Float and double payloads are kept as their raw bytes;
their IEEE-754 interpretation is irrelevant to the claims proved. -/
inductive DVal where
  | bytes (b : List Nat)
  | uint (n : Nat)
  | floatRaw (b : List Nat)
  | doubles (v : List (List Nat))
  | config (c : List Electrode)
  deriving DecidableEq, Repr

/-- Byte `i` of the memory `datasource::deserialize` reads: inside the
buffer it is the byte of the buffer; past the end it is whatever happens to
follow the buffer in memory, supplied by `junk` (the C++ code performs
the out-of-bounds `memcpy` without any length check). -/
def bufByte (buf : List Nat) (junk : Nat → Nat) (i : Nat) : Nat :=
  if i < buf.length then buf.getD i 0 % 256 else junk i % 256

/-- Little-endian 32-bit read from buffer-plus-junk memory. -/
def bufRd32 (buf : List Nat) (junk : Nat → Nat) (off : Nat) : Nat :=
  bufByte buf junk off + 256 * bufByte buf junk (off + 1) +
    65536 * bufByte buf junk (off + 2) + 16777216 * bufByte buf junk (off + 3)

/-- Little-endian 16-bit read from buffer-plus-junk memory. -/
def bufRd16 (buf : List Nat) (junk : Nat → Nat) (off : Nat) : Nat :=
  bufByte buf junk off + 256 * bufByte buf junk (off + 1)

/-- `datasource::deserialize`.  Note the source performs every `memcpy`
unconditionally: no branch inspects `buffer.size()`, so a short buffer
is never rejected — the read simply runs past the end (modelled by
`junk`).  `none` models the default-constructed (invalid) `QVariant`
returned for unknown parameter names. -/
def deserializeDS (param : String) (buf : List Nat) (junk : Nat → Nat) :
    Option DVal :=
  if param ∈ stringParams then
    some (.bytes (buf.map (· % 256)))
  else if param ∈ uintParams then
    some (.uint (bufRd32 buf junk 0))
  else if param = "analog-output" then
    let size := bufRd32 buf junk 0
    some (.doubles ((List.range size).map fun i =>
      (List.range 8).map fun j => bufByte buf junk (4 + 8 * i + j)))
  else if param ∈ floatParams then
    some (.floatRaw ((List.range 4).map (bufByte buf junk)))
  else if param = "configuration" then
    let size := bufRd32 buf junk 0
    some (.config ((List.range size).map fun i =>
      { index := bufRd32 buf junk (4 + 20 * i)
        xpos := bufRd32 buf junk (4 + 20 * i + 4)
        x := bufRd16 buf junk (4 + 20 * i + 8)
        ypos := bufRd32 buf junk (4 + 20 * i + 12)
        y := bufRd16 buf junk (4 + 20 * i + 16)
        label := bufByte buf junk (4 + 20 * i + 18) }))
  else none

/-! ## Wire-codec theorems (claims about `configuration.h` / `data-source.cc`) -/

/-- Length of the raw-records part: `size * sizeof(Electrode)` bytes. -/
theorem rawRecords_length (cfg : List Electrode) :
    ∀ (i : Nat) (pad : Nat → Nat × Nat × Nat),
      (rawRecords cfg i pad).length = sizeofElectrode * cfg.length := by
  induction cfg with
  | nil => intro i pad; simp [rawRecords]
  | cons e rest ih =>
    intro i pad
    simp [rawRecords, electrodeRawBytes, u32le, u16le, ih, sizeofElectrode]
    ring

/-- C10 (helper): decoding a little-endian 32-bit write recovers the value. -/
theorem rd32_u32le (n : Nat) (h : n < 2 ^ 32) (post : List Nat) :
    rd32 (u32le n ++ post) 0 = n := by
  simp [rd32, u32le, byteD, List.getD]
  omega

/--
C10 counterexample: `Electrode::bytesize()` is
`3 * sizeof(quint32) + 2 * sizeof(quint16) + sizeof(quint8)`
`= 12 + 4 + 1 = 17`, so `e.serialize()` has 17 bytes, not the 19 the
claim asserts.
-/
theorem electrode_bytesize_not_19 :
    (Electrode.mk 1 2 3 4 5 6).serializeBytes.length = Electrode.bytesize ∧
      (Electrode.mk 1 2 3 4 5 6).serializeBytes.length ≠ 19 := by
  decide

/--
C10 (amended): for every well-formed `Electrode` value `e`, the packed
byte codec is a round trip: `e.serialize()` has length exactly
`Electrode::bytesize() = 17` (not 19), and
`Electrode::deserialize(e.serialize())` recovers all six fields of `e`.
-/
theorem electrode_serialize_roundtrip (e : Electrode) (hWF : e.WF) :
    e.serializeBytes.length = Electrode.bytesize ∧
      Electrode.deserializeBytes e.serializeBytes = e := by
  obtain ⟨h1, h2, h3, h4, h5, h6⟩ := hWF
  constructor
  · simp [Electrode.serializeBytes, u32le, u16le, Electrode.bytesize]
  · ext <;>
      simp [Electrode.serializeBytes, Electrode.deserializeBytes,
        u32le, u16le, rd32, rd16, byteD, List.getD] <;>
      omega

/-- Witness for C10 at a concrete electrode. -/
theorem electrode_serialize_roundtrip_witness :
    (Electrode.mk 173 2045 13 1720 55 104).WF ∧
      ((Electrode.mk 173 2045 13 1720 55 104).serializeBytes.length =
          Electrode.bytesize ∧
        Electrode.deserializeBytes
            (Electrode.mk 173 2045 13 1720 55 104).serializeBytes =
          Electrode.mk 173 2045 13 1720 55 104) :=
  ⟨by decide, electrode_serialize_roundtrip _ (by decide)⟩

/--
C6 counterexample: serializing a one-electrode configuration through the
`"configuration"` branch of `datasource::serialize` produces a buffer of
`4 + sizeof(Electrode) * 1 = 24` bytes, not the `4 + 19 * 1 = 23` bytes
the claim asserts: the branch copies `size * sizeof(Electrode)` raw
struct bytes (including alignment padding), not `Electrode::bytesize()`
packed records.
-/
theorem serializeConfiguration_length_claim_false :
    (serializeConfigurationDS [Electrode.mk 1 2 3 4 5 6]
        (fun _ => (0, 0, 0))).length ≠ 4 + 19 * 1 := by
  decide

/--
C6 (amended): serializing the `"configuration"` parameter for a
configuration with `n` electrodes produces a buffer of exactly
`4 + sizeof(Electrode) * n = 4 + 20 * n` bytes — a 4-byte element count
followed by `n` raw 20-byte struct records, each laid out as the fields
in declaration order at their ABI offsets (`index` 0, `xpos` 4, `x` 8,
`ypos` 12, `y` 16, `label` 18) with two padding bytes after `x` and one
after `label` — regardless of the (indeterminate) padding contents.
-/
theorem serializeConfiguration_length (cfg : List Electrode)
    (pad : Nat → Nat × Nat × Nat) :
    (serializeConfigurationDS cfg pad).length = 4 + 20 * cfg.length ∧
      serializeConfigurationDS cfg pad =
        u32le cfg.length ++ rawRecords cfg 0 pad := by
  refine ⟨?_, rfl⟩
  simp [serializeConfigurationDS, rawRecords_length, u32le, sizeofElectrode]
  omega

/--
C7: `datasource::deserialize` applied to the parameter `"nchannels"`
(wire representation: 4-byte unsigned integer, minimum length 4) and an
*empty* buffer does not reject the short buffer: it performs the
4-byte `memcpy` anyway, reading the bytes that happen to follow the
buffer in memory (here the junk environment `fun _ => 0`), and returns
them as a decoded value.
-/
theorem deserialize_nchannels_empty_buffer_reads_junk :
    deserializeDS "nchannels" [] (fun _ => 0) = some (.uint 0) := by
  decide

/-! ## HiDens source state (`include/base-source.h`, `src/hidens-source.cc`)

The repository carries the base-class contract in two namings (the §9
note of the design history): the header in `include/` names the states
`disconnected` / `connected` / `streaming` with verbs
`connect` / `disconnect`, while the concrete sources in `src/` use
`invalid` / `initialized` / `streaming` with the verb `initialize`.
They describe the same three-state machine; `canonOfName` below maps
both namings onto the canonical states. -/

/-- The sentinel `(quint32)(-1)`, stored in `m_plug` / `m_chipId` when
unset. -/
def unsetU32 : Nat := 4294967295

/-- The mutable state of a `HidensSource` (the `BaseSource` fields the
claims are about, plus the HiDens-specific members).  `QDateTime`
members are modelled by whether they are set; the acquisition socket and
the read timer by `Bool` flags. -/
structure HState where
  state : String
  connectTime : Bool
  startTime : Bool
  configuration : List Electrode
  configurationFile : String
  sampleRate : Option ℚ
  gain : Option ℚ
  adcRange : Option ℚ
  deviceGain : Option ℚ
  nchannels : Nat
  plug : Nat
  chipId : Nat
  trigger : String
  analogOutput : List ℚ
  electrodeIndices : Nat → Int
  channelIndices : List Nat
  socketOpen : Bool
  timerRunning : Bool

/-- The state of a freshly constructed `HidensSource`: the `BaseSource`
constructor nulls the timestamps and sets `m_gain`/`m_adcRange` to NaN,
`m_plug`/`m_chipId` to `-1`; the `HidensSource` constructor fills
`m_electrodeIndices` with `-1` except for the photodiode row 130. -/
def initialHState : HState :=
  { state := "invalid"
    connectTime := false
    startTime := false
    configuration := []
    configurationFile := ""
    sampleRate := some 20000
    gain := none
    adcRange := none
    deviceGain := none
    nchannels := 0
    plug := unsetU32
    chipId := unsetU32
    trigger := "none"
    analogOutput := []
    electrodeIndices := fun i => if i = 130 then 1 else -1
    channelIndices := []
    socketOpen := false
    timerRunning := false }

/-- `BaseSource::handleError`: drive the state to the
invalid/disconnected state and reset every device-derived field
(`base-source.h` lines 390–404). -/
def baseHandleError (s : HState) : HState :=
  { s with
    state := "disconnected"
    connectTime := false
    startTime := false
    configuration := []
    gain := none
    adcRange := none
    nchannels := 0
    plug := unsetU32
    chipId := unsetU32
    trigger := "none"
    analogOutput := [] }

/-- `HidensSource::handleError`: tear down the socket, then run the base
class error transition (`hidens-source.cc` lines 498–503). -/
def hidensHandleError (s : HState) : HState :=
  baseHandleError { s with socketOpen := false }

/-! ### Canonical states and the state-naming map -/

/-- The three canonical lifecycle states. -/
inductive CanonState where
  | invalid
  | initialized
  | streaming
  deriving DecidableEq, Repr

/-- Map a state name from either naming variant of the contract onto
the canonical state it denotes: `invalid`/`disconnected` are the
initial state, `initialized`/`connected` the ready state. -/
def canonOfName (s : String) : Option CanonState :=
  if s = "invalid" ∨ s = "disconnected" then some .invalid
  else if s = "initialized" ∨ s = "connected" then some .initialized
  else if s = "streaming" then some .streaming
  else none

/-- The state name quoted (between apostrophes) inside a failure
message, if any. -/
def quotedStateName (m : String) : Option String :=
  match splitChar aposChar m with
  | _ :: q :: _ => some q
  | _ => none

/-! ### Lifecycle request replies and messages -/

/-- The `(success, message)` payload of the `initialized` /
`streamStarted` / `streamStopped` reply signals. -/
structure LReply where
  success : Bool
  msg : String
  deriving DecidableEq, Repr

/-- The wrong-state message of `initialize`, naming the required state. -/
def msgInitRequired : String :=
  "Can only initialize from " ++ apos ++ "invalid" ++ apos ++ " state."

/-- The wrong-state message of `startStream`; it quotes the legacy name
`connected` of the initialized state. -/
def msgStartRequired : String :=
  "Can only start stream from the " ++ apos ++ "connected" ++ apos ++ " state."

/-- The wrong-state message of `stopStream`, naming the required state. -/
def msgStopRequired : String :=
  "Can only stop stream from the " ++ apos ++ "streaming" ++ apos ++ " state."

/-- "Communication with the HiDens data server timed out." -/
def msgTimeout : String :=
  "Communication with the HiDens data server timed out."

/-- "Error initializing communication with HiDens data server." -/
def msgInitComm : String :=
  "Error initializing communication with HiDens data server."

/-- "Could not connect to HiDens data server." -/
def msgNoConnect : String :=
  "Could not connect to HiDens data server."

/-- "Could not retrieve sampling rate from HiDens server. ..." -/
def msgNoSampleRate : String :=
  "Could not retrieve sampling rate from HiDens server. " ++
    "Make sure the server is running and a chip is plugged into the Neurolizer."

/-- "Could not retrieve gain from HiDens server. ..." -/
def msgNoGain : String :=
  "Could not retrieve gain from HiDens server. " ++
    "Make sure the server is running and a chip is plugged into the Neurolizer."

/-- "Could not retrieve ADC range from HiDens server. ..." -/
def msgNoAdcRange : String :=
  "Could not retrieve ADC range from HiDens server. " ++
    "Make sure the server is running and a chip is plugged into the Neurolizer."

/-! ### Lifecycle transitions (`hidens-source.cc` lines 54–112, 202–285) -/

/-- The environment of one `initialize` attempt: whether the TCP
connection to the HiDens server succeeds, and the reply to each
handshake command (`none` models a `waitForReadyRead` timeout, whose
`handleError` escalation `getHidensReply` performs before returning the
null reply). -/
structure InitEnv where
  connected : Bool
  setbytesReply : Option String
  headerReply : Option String
  clientNameReply : Option String
  srReply : Option String
  gainReply : Option String
  adcRangeReply : Option String

/-- `HidensSource::handleConnectionMade(true)` (the handshake), together
with the state guard of `HidensSource::initialize`.  The socket writes of
`askHidens` are modelled as succeeding; each blocking reply comes from
the environment.  On the final step the effective gain is computed as
`m_adcRange / (1 << 8) / m_deviceGain` (rational division stands in for
`float` division; no claim depends on rounding, and the `float`
infinity produced by a zero device gain is outside the model). -/
def hidensInitializeStep (s : HState) (env : InitEnv) : HState × LReply :=
  if s.state = "invalid" then
    if env.connected then
      match env.setbytesReply with
      | none => (hidensHandleError s, ⟨false, msgInitComm⟩)
      | some r1 =>
        if qStartsWith r1 "Error" then
          ({ s with socketOpen := false }, ⟨false, msgInitComm⟩)
        else
          match env.headerReply with
          | none => (hidensHandleError s, ⟨false, msgInitComm⟩)
          | some r2 =>
            if qStartsWith r2 "Error" then
              ({ s with socketOpen := false }, ⟨false, msgInitComm⟩)
            else
              match env.clientNameReply with
              | none => (hidensHandleError s, ⟨false, msgInitComm⟩)
              | some r3 =>
                if qStartsWith r3 "Error" then
                  ({ s with socketOpen := false }, ⟨false, msgInitComm⟩)
                else
                  match env.srReply with
                  | none => (hidensHandleError s, ⟨false, msgNoSampleRate⟩)
                  | some r4 =>
                    match qToFloatOpt r4 with
                    | none =>
                      ({ s with socketOpen := false }, ⟨false, msgNoSampleRate⟩)
                    | some sr =>
                      let s4 := { s with sampleRate := some sr }
                      match env.gainReply with
                      | none => (hidensHandleError s4, ⟨false, msgNoGain⟩)
                      | some r5 =>
                        match qToFloatOpt r5 with
                        | none =>
                          ({ s4 with socketOpen := false }, ⟨false, msgNoGain⟩)
                        | some dg =>
                          let s5 := { s4 with deviceGain := some dg }
                          match env.adcRangeReply with
                          | none => (hidensHandleError s5, ⟨false, msgNoAdcRange⟩)
                          | some r6 =>
                            match qToFloatOpt r6 with
                            | none =>
                              ({ s5 with socketOpen := false },
                                ⟨false, msgNoAdcRange⟩)
                            | some adc =>
                              ({ s5 with
                                  adcRange := some adc
                                  gain := some (adc / 256 / dg)
                                  state := "initialized"
                                  connectTime := true
                                  socketOpen := true },
                                ⟨true, ""⟩)
    else
      ({ s with connectTime := false, socketOpen := false },
        ⟨false, msgNoConnect⟩)
  else (s, ⟨false, msgInitRequired⟩)

/-- The gain validity test of `HidensSource::startStream`:
`std::isnan(m_gain) || m_gain < 0. || m_gain > 10000.`. -/
def gainBad : Option ℚ → Bool
  | none => true
  | some q => decide (q < 0) || decide (q > 10000)

/-- "Cannot start HiDens data stream with source plug = %1". -/
def msgBadPlug (plug : Nat) : String :=
  "Cannot start HiDens data stream with source plug = " ++ toString plug

/-- "Cannot initialize HiDens source with empty configuration." -/
def msgEmptyConfig : String :=
  "Cannot initialize HiDens source with empty configuration."

/-- "Cannot initialize HiDens source with gain = %1". -/
def msgBadGain (gain : Option ℚ) : String :=
  "Cannot initialize HiDens source with gain = " ++
    (match gain with
      | none => "nan"
      | some q => toString q)

/-- `HidensSource::startStream` (`hidens-source.cc` lines 68–98): from
the `initialized` state, validate plug, configuration and gain; on
success send the `live` command, start the read timer and move to
`streaming`. -/
def hidensStartStream (s : HState) : HState × LReply :=
  if s.state = "initialized" then
    if 4 < s.plug then
      (s, ⟨false, msgBadPlug s.plug⟩)
    else if s.configuration.length = 0 then
      (s, ⟨false, msgEmptyConfig⟩)
    else if gainBad s.gain then
      (s, ⟨false, msgBadGain s.gain⟩)
    else
      ({ s with state := "streaming", timerRunning := true }, ⟨true, ""⟩)
  else (s, ⟨false, msgStartRequired⟩)

/-- `HidensSource::stopStream` (`hidens-source.cc` lines 100–112). -/
def hidensStopStream (s : HState) : HState × LReply :=
  if s.state = "streaming" then
    ({ s with state := "initialized", timerRunning := false }, ⟨true, ""⟩)
  else (s, ⟨false, msgStopRequired⟩)

/-! ### Lifecycle request sequences -/

/-- One lifecycle request, with the environment an `initialize` attempt
interacts with. -/
inductive LReq where
  | initializeReq (env : InitEnv)
  | startStream
  | stopStream

/-- Dispatch one lifecycle request. -/
def stepLifecycle (s : HState) : LReq → HState × LReply
  | .initializeReq env => hidensInitializeStep s env
  | .startStream => hidensStartStream s
  | .stopStream => hidensStopStream s

/-- The canonical state a request must originate from. -/
def reqOrigin : LReq → CanonState
  | .initializeReq _ => .invalid
  | .startStream => .initialized
  | .stopStream => .streaming

/-- The canonical state a successful request ends in. -/
def reqTarget : LReq → CanonState
  | .initializeReq _ => .initialized
  | .startStream => .streaming
  | .stopStream => .initialized

/-- The per-request transition contract: a successful request is one of
the three legal transitions (originating and ending in the canonical
states of the transition table), and a request issued from any state
other than its originating one fails, leaves the state unchanged, and
carries a message whose quoted state name denotes the required
originating state. -/
def LifecycleStepOk (s : HState) (r : LReq) : Prop :=
  ((stepLifecycle s r).2.success = true →
    canonOfName s.state = some (reqOrigin r) ∧
      canonOfName (stepLifecycle s r).1.state = some (reqTarget r)) ∧
  (canonOfName s.state ≠ some (reqOrigin r) →
    (stepLifecycle s r).2.success = false ∧
      (stepLifecycle s r).1 = s ∧
      ((quotedStateName (stepLifecycle s r).2.msg).bind canonOfName =
        some (reqOrigin r)))

/-- The trace of a request sequence: each request paired with the state
it was issued from. -/
def lifecycleTrace (s : HState) : List LReq → List (HState × LReq)
  | [] => []
  | r :: rs => (s, r) :: lifecycleTrace (stepLifecycle s r).1 rs

/-! ### State-machine lemmas -/

theorem canonOfName_invalid : canonOfName "invalid" = some .invalid := by decide

theorem canonOfName_initialized :
    canonOfName "initialized" = some .initialized := by decide

theorem canonOfName_streaming :
    canonOfName "streaming" = some .streaming := by decide

theorem quoted_msgInitRequired :
    (quotedStateName msgInitRequired).bind canonOfName = some .invalid := by
  decide

theorem quoted_msgStartRequired :
    (quotedStateName msgStartRequired).bind canonOfName = some .initialized := by
  decide

theorem quoted_msgStopRequired :
    (quotedStateName msgStopRequired).bind canonOfName = some .streaming := by
  decide

/-- A wrong-state `initialize` request returns unchanged state and the
state-naming failure message. -/
theorem hidensInitializeStep_wrongState (s : HState) (env : InitEnv)
    (h : s.state ≠ "invalid") :
    hidensInitializeStep s env = (s, ⟨false, msgInitRequired⟩) := by
  unfold hidensInitializeStep
  simp [h]

/-- Outcome analysis of `initialize` from the `"invalid"` state: every
reply failure reports `success = false`; the only success ends in the
`"initialized"` state. -/
theorem hidensInitializeStep_cases (s : HState) (env : InitEnv)
    (hst : s.state = "invalid") :
    (hidensInitializeStep s env).2.success = false ∨
      ((hidensInitializeStep s env).2.success = true ∧
        (hidensInitializeStep s env).1.state = "initialized") := by
  unfold hidensInitializeStep
  simp only [hst, if_true]
  repeat' split
  all_goals simp

/-- A successful `initialize` originated in `"invalid"` and ended in
`"initialized"`. -/
theorem hidensInitializeStep_success (s : HState) (env : InitEnv)
    (h : (hidensInitializeStep s env).2.success = true) :
    s.state = "invalid" ∧ (hidensInitializeStep s env).1.state = "initialized" := by
  by_cases hst : s.state = "invalid"
  · rcases hidensInitializeStep_cases s env hst with hf | hok
    · rw [h] at hf; exact absurd hf (by simp)
    · exact ⟨hst, hok.2⟩
  · rw [hidensInitializeStep_wrongState s env hst] at h
    simp at h

/-- Outcome analysis of `startStream` from the `"initialized"` state. -/
theorem hidensStartStream_cases (s : HState) (hst : s.state = "initialized") :
    (hidensStartStream s).2.success = false ∨
      ((hidensStartStream s).2.success = true ∧
        (hidensStartStream s).1.state = "streaming") := by
  unfold hidensStartStream
  simp only [hst, if_true]
  repeat' split
  all_goals simp

/-- Outcome analysis of `stopStream` from the `"streaming"` state. -/
theorem hidensStopStream_cases (s : HState) (hst : s.state = "streaming") :
    (hidensStopStream s).2.success = true ∧
      (hidensStopStream s).1.state = "initialized" := by
  unfold hidensStopStream
  simp [hst]

/-- Every single lifecycle request satisfies the transition contract. -/
theorem lifecycleStepOk_all (s : HState) (r : LReq) : LifecycleStepOk s r := by
  cases r with
  | initializeReq env =>
    constructor
    · intro hsucc
      obtain ⟨horig, htgt⟩ :=
        hidensInitializeStep_success s env hsucc
      show canonOfName s.state = some .invalid ∧
        canonOfName (hidensInitializeStep s env).1.state = some .initialized
      rw [horig, htgt]
      exact ⟨canonOfName_invalid, canonOfName_initialized⟩
    · intro hwrong
      have hst : s.state ≠ "invalid" := by
        intro hc
        rw [hc, canonOfName_invalid] at hwrong
        exact hwrong rfl
      rw [show stepLifecycle s (.initializeReq env) = hidensInitializeStep s env
          from rfl, hidensInitializeStep_wrongState s env hst]
      exact ⟨rfl, rfl, quoted_msgInitRequired⟩
  | startStream =>
    constructor
    · intro hsucc
      by_cases hst : s.state = "initialized"
      · rcases hidensStartStream_cases s hst with hf | hok
        · rw [show (stepLifecycle s .startStream).2.success =
              (hidensStartStream s).2.success from rfl, hf] at hsucc
          exact absurd hsucc (by simp)
        · show canonOfName s.state = some .initialized ∧
            canonOfName (hidensStartStream s).1.state = some .streaming
          rw [hst, hok.2]
          exact ⟨canonOfName_initialized, canonOfName_streaming⟩
      · have : stepLifecycle s .startStream = (s, ⟨false, msgStartRequired⟩) := by
          unfold stepLifecycle hidensStartStream
          simp [hst]
        rw [this] at hsucc
        exact absurd hsucc (by simp)
    · intro hwrong
      have hst : s.state ≠ "initialized" := by
        intro hc
        rw [hc, canonOfName_initialized] at hwrong
        exact hwrong rfl
      have : stepLifecycle s .startStream = (s, ⟨false, msgStartRequired⟩) := by
        unfold stepLifecycle hidensStartStream
        simp [hst]
      rw [this]
      exact ⟨rfl, rfl, quoted_msgStartRequired⟩
  | stopStream =>
    constructor
    · intro hsucc
      by_cases hst : s.state = "streaming"
      · show canonOfName s.state = some .streaming ∧
          canonOfName (hidensStopStream s).1.state = some .initialized
        rw [hst, (hidensStopStream_cases s hst).2]
        exact ⟨canonOfName_streaming, canonOfName_initialized⟩
      · have : stepLifecycle s .stopStream = (s, ⟨false, msgStopRequired⟩) := by
          unfold stepLifecycle hidensStopStream
          simp [hst]
        rw [this] at hsucc
        exact absurd hsucc (by simp)
    · intro hwrong
      have hst : s.state ≠ "streaming" := by
        intro hc
        rw [hc, canonOfName_streaming] at hwrong
        exact hwrong rfl
      have : stepLifecycle s .stopStream = (s, ⟨false, msgStopRequired⟩) := by
        unfold stepLifecycle hidensStopStream
        simp [hst]
      rw [this]
      exact ⟨rfl, rfl, quoted_msgStopRequired⟩

/--
C1: for every source state and every sequence of lifecycle requests,
every step of the resulting trace satisfies the transition contract:
the only requests that ever succeed are `initialize` from the
invalid/disconnected state ending initialized, `startStream` from
initialized ending streaming, and `stopStream` from streaming ending
initialized; a lifecycle request issued from any state other than its
originating one reports failure with a message whose quoted state name
denotes the required originating state, and leaves the state unchanged.
-/
theorem lifecycle_transition_contract (s : HState) (reqs : List LReq) :
    List.Forall (fun t => LifecycleStepOk t.1 t.2) (lifecycleTrace s reqs) := by
  induction reqs generalizing s with
  | nil => exact trivial
  | cons r rs ih =>
    rw [lifecycleTrace, List.forall_cons]
    exact ⟨lifecycleStepOk_all s r, ih _⟩

/-- Witness for C1: a concrete two-request trace through the contract
theorem. -/
theorem lifecycle_transition_contract_witness :
    List.Forall (fun t => LifecycleStepOk t.1 t.2)
      (lifecycleTrace initialHState [.startStream, .stopStream]) :=
  lifecycle_transition_contract initialHState [.startStream, .stopStream]

/--
C4: from the `initialized` state, `startStream` fails — reporting
`streamStarted` with `success = false` and the specific validation
message — and leaves the state unchanged whenever no plug is selected
(`m_plug` holds the unset sentinel), or the configuration is empty, or
the gain is NaN or outside `[0, 10000]`; when all three preconditions
hold it moves to `streaming`, starts the read timer, and reports
success.  The hypothesis on `plug` is the invariant maintained by
`set("plug", ...)` and `handleError`: the stored plug is a validated
slot `≤ 4` or the unset sentinel.
-/
theorem hidensStartStream_validation (s : HState)
    (hst : s.state = "initialized")
    (hplug : s.plug ≤ 4 ∨ s.plug = unsetU32) :
    ((hidensStartStream s).2.success = true ↔
      (s.plug ≠ unsetU32 ∧ s.configuration ≠ [] ∧ gainBad s.gain = false)) ∧
    (s.plug = unsetU32 →
      hidensStartStream s = (s, ⟨false, msgBadPlug s.plug⟩)) ∧
    (s.plug ≠ unsetU32 → s.configuration = [] →
      hidensStartStream s = (s, ⟨false, msgEmptyConfig⟩)) ∧
    (s.plug ≠ unsetU32 → s.configuration ≠ [] → gainBad s.gain = true →
      hidensStartStream s = (s, ⟨false, msgBadGain s.gain⟩)) ∧
    (s.plug ≠ unsetU32 → s.configuration ≠ [] → gainBad s.gain = false →
      hidensStartStream s =
        ({ s with state := "streaming", timerRunning := true }, ⟨true, ""⟩)) := by
  have hlt : (4 < s.plug) ↔ (s.plug = unsetU32) := by
    unfold unsetU32 at *
    rcases hplug with h | h <;> omega
  have hnlt : ∀ hp : s.plug ≠ unsetU32, ¬ (4 < s.plug) :=
    fun hp hh => hp (hlt.mp hh)
  have h1 : s.plug = unsetU32 →
      hidensStartStream s = (s, ⟨false, msgBadPlug s.plug⟩) := by
    intro hp
    unfold hidensStartStream
    simp [hst, hlt.mpr hp]
  have h2 : s.plug ≠ unsetU32 → s.configuration = [] →
      hidensStartStream s = (s, ⟨false, msgEmptyConfig⟩) := by
    intro hp hc
    unfold hidensStartStream
    simp [hst, hnlt hp, hc]
  have h3 : s.plug ≠ unsetU32 → s.configuration ≠ [] → gainBad s.gain = true →
      hidensStartStream s = (s, ⟨false, msgBadGain s.gain⟩) := by
    intro hp hc hg
    unfold hidensStartStream
    simp [hst, hnlt hp, hc, hg]
  have h4 : s.plug ≠ unsetU32 → s.configuration ≠ [] → gainBad s.gain = false →
      hidensStartStream s =
        ({ s with state := "streaming", timerRunning := true }, ⟨true, ""⟩) := by
    intro hp hc hg
    unfold hidensStartStream
    simp [hst, hnlt hp, hc, hg]
  refine ⟨?_, h1, h2, h3, h4⟩
  constructor
  · intro hsucc
    by_cases hp : s.plug = unsetU32
    · rw [h1 hp] at hsucc; exact absurd hsucc (by simp)
    · by_cases hc : s.configuration = []
      · rw [h2 hp hc] at hsucc; exact absurd hsucc (by simp)
      · by_cases hg : gainBad s.gain = true
        · rw [h3 hp hc hg] at hsucc; exact absurd hsucc (by simp)
        · exact ⟨hp, hc, Bool.eq_false_iff.mpr hg⟩
  · rintro ⟨hp, hc, hg⟩
    rw [h4 hp hc hg]

/-- Witness for C4: a concrete initialized state with a selected plug,
a one-electrode configuration and gain 5, started successfully. -/
theorem hidensStartStream_validation_witness :
    ({ initialHState with
        state := "initialized"
        plug := 1
        chipId := 7
        configuration := [Electrode.mk 3 0 0 0 0 0]
        gain := some 5 } : HState).state = "initialized" ∧
      (({ initialHState with
          state := "initialized"
          plug := 1
          chipId := 7
          configuration := [Electrode.mk 3 0 0 0 0 0]
          gain := some 5 } : HState).plug ≤ 4 ∨
        ({ initialHState with
            state := "initialized"
            plug := 1
            chipId := 7
            configuration := [Electrode.mk 3 0 0 0 0 0]
            gain := some 5 } : HState).plug = unsetU32) ∧
      (hidensStartStream { initialHState with
          state := "initialized"
          plug := 1
          chipId := 7
          configuration := [Electrode.mk 3 0 0 0 0 0]
          gain := some 5 }).2.success = true :=
  ⟨rfl, Or.inl (by decide),
    ((hidensStartStream_validation _ rfl (Or.inl (by decide))).1).mpr
      ⟨by decide, by simp, by decide⟩⟩

theorem canonOfName_disconnected_eval :
    canonOfName "disconnected" = some .invalid := by decide

/--
C5: the error-handling transition `HidensSource::handleError` (which
closes the socket and runs `BaseSource::handleError`) always drives the
state to the invalid/disconnected state and resets every device-derived
field — connect and start time, configuration, gain, ADC range, channel
count, plug, chip id, trigger and analog output — and it is idempotent:
running it again from the already-reset state yields the same state.
-/
theorem hidensHandleError_resets (s : HState) :
    (hidensHandleError s).state = "disconnected" ∧
    canonOfName (hidensHandleError s).state = some .invalid ∧
    (hidensHandleError s).connectTime = false ∧
    (hidensHandleError s).startTime = false ∧
    (hidensHandleError s).configuration = [] ∧
    (hidensHandleError s).gain = none ∧
    (hidensHandleError s).adcRange = none ∧
    (hidensHandleError s).nchannels = 0 ∧
    (hidensHandleError s).plug = unsetU32 ∧
    (hidensHandleError s).chipId = unsetU32 ∧
    (hidensHandleError s).trigger = "none" ∧
    (hidensHandleError s).analogOutput = [] ∧
    hidensHandleError (hidensHandleError s) = hidensHandleError s :=
  ⟨rfl, canonOfName_disconnected_eval, rfl, rfl, rfl, rfl, rfl, rfl, rfl, rfl,
    rfl, rfl, rfl⟩

/-! ## Electrode-configuration retrieval (`hidens-source.cc` lines 373–441) -/

/-- The newline character. -/
def nlChar : Char := Char.ofNat 10

/-- The strip function applied to each channel line: `if (s.endsWith
" ")  s.chop(1);` — removes exactly one trailing space. -/
def stripTrailingSpace (t : String) : String :=
  match t.toList.getLast? with
  | some c => if c = ' ' then String.mk t.toList.dropLast else t
  | none => t

/-- `originalChannelReply.split("\n")` followed by the per-line strip. -/
def channelLines (reply : String) : List String :=
  (splitChar nlChar reply).map stripTrailingSpace

/-- `m_electrodeIndices` immediately after `fill(-1)` and setting the
photodiode row `m_hidensFrameSize - 1 = 130` to `1`. -/
def baseElectrodeIndices : Nat → Int :=
  fun i => if i = 130 then 1 else -1

/-- The channel loop: for each line, at position `n`, a non-empty line
stores `each.toInt()` at index `n`; `n` counts every line. -/
def applyLines : (Nat → Int) → Nat → List String → (Nat → Int)
  | f, _, [] => f
  | f, n, l :: rest =>
    applyLines
      (if l = "" then f else fun j => if j = n then qToInt l else f j)
      (n + 1) rest

/-- The character class of `QRegularExpression("\\s|[xyp]")` used to
split an electrode-position line. -/
def isQSplitChar (c : Char) : Bool :=
  c.isWhitespace || c = 'x' || c = 'y' || c = 'p'

/-- Parse one electrode from the position table: `el.index` is the
(int-to-`quint32`) channel report value; the position fields come from
parts 0, 1, 3, 4, 5 of the looked-up line (out-of-range accesses of the
list model the unchecked `at`/`[]` accesses of the source as defaults). -/
def electrodeOfIndex (elLines : List String) (v : Int) : Electrode :=
  let line := if 0 ≤ v then elLines.getD v.toNat "" else ""
  let parts := splitPred isQSplitChar line
  { index := u32OfInt v
    xpos := u32OfInt (qToInt (parts.getD 0 ""))
    ypos := u32OfInt (qToInt (parts.getD 1 ""))
    x := u16OfInt (qToInt (parts.getD 3 ""))
    y := u16OfInt (qToInt (parts.getD 4 ""))
    label := firstCharCode (parts.getD 5 "") }

/-- The configuration-parsing loop: for `i` in `0 ..< m_ntotalChannels
= 126`, skip unconnected channels (`m_electrodeIndices(i) == -1`) and
append the parsed electrode. -/
def buildConfig (idx : Nat → Int) (elLines : List String) : List Electrode :=
  (List.range 126).filterMap fun i =>
    if idx i = -1 then none else some (electrodeOfIndex elLines (idx i))

/-- Environment of one configuration query: the (possibly timed-out)
`ch 0-125` reply and the electrode-position resource file. -/
structure CfgEnv where
  chTimeout : Bool
  chReply : String
  electrodeFileExists : Bool
  electrodeFileContent : String

/-- `HidensSource::getConfigurationFromServer`: ask `ch 0-125`; a
timeout or an error-flagged reply escalates through `handleError`;
otherwise rebuild `m_electrodeIndices`, count `m_nchannels`, select
`m_channelIndices = find(m_electrodeIndices > 0)` (all 131 rows), and
parse `m_configuration` from the resource file — whose absence clears
the configuration and escalates through `handleError`. -/
def getConfigurationFromServer (s : HState) (env : CfgEnv) : HState :=
  if env.chTimeout then hidensHandleError s
  else if qStartsWith env.chReply "Error" then hidensHandleError s
  else
    let lines := channelLines env.chReply
    let idx := applyLines baseElectrodeIndices 0 lines
    let nch := (lines.filter (fun l => l ≠ "")).length
    let chIdx := (List.range 131).filter (fun i => 0 < idx i)
    let s1 := { s with
      electrodeIndices := idx, nchannels := nch, channelIndices := chIdx }
    if env.electrodeFileExists then
      { s1 with
        configuration := buildConfig idx (splitChar nlChar env.electrodeFileContent) }
    else
      hidensHandleError { s1 with configuration := [] }

/-! ### Configuration-retrieval lemmas -/

/-- Value of `m_electrodeIndices(m)` after the channel loop: position
`m` receives the parsed value of line `m - n` when that line exists and
is non-empty, and keeps its previous value otherwise. -/
theorem applyLines_apply (lines : List String) :
    ∀ (f : Nat → Int) (n m : Nat),
      applyLines f n lines m =
        if n ≤ m ∧ m - n < lines.length ∧ lines.getD (m - n) "" ≠ "" then
          qToInt (lines.getD (m - n) "")
        else f m := by
  induction lines with
  | nil => intro f n m; simp [applyLines]
  | cons l rest ih =>
    intro f n m
    rw [applyLines, ih]
    rcases Nat.lt_trichotomy m n with hlt | heq | hgt
    · have hL : ¬ (n + 1 ≤ m ∧ m - (n + 1) < rest.length ∧
          rest.getD (m - (n + 1)) "" ≠ "") := fun hc => absurd hc.1 (by omega)
      have hR : ¬ (n ≤ m ∧ m - n < (l :: rest).length ∧
          (l :: rest).getD (m - n) "" ≠ "") := fun hc => absurd hc.1 (by omega)
      rw [if_neg hL, if_neg hR]
      by_cases hl : l = ""
      · simp [hl]
      · simp [hl, show m ≠ n by omega]
    · have hL : ¬ (n + 1 ≤ m ∧ m - (n + 1) < rest.length ∧
          rest.getD (m - (n + 1)) "" ≠ "") := fun hc => absurd hc.1 (by omega)
      rw [if_neg hL]
      subst heq
      by_cases hl : l = ""
      · have hR : ¬ (m ≤ m ∧ m - m < (l :: rest).length ∧
            (l :: rest).getD (m - m) "" ≠ "") := by simp [hl]
        rw [if_neg hR]
        simp [hl]
      · have hR : m ≤ m ∧ m - m < (l :: rest).length ∧
            (l :: rest).getD (m - m) "" ≠ "" := by simp [hl]
        rw [if_pos hR]
        simp [hl]
    · have hmn : m - n = (m - (n + 1)) + 1 := by omega
      have hcond : (n ≤ m ∧ m - n < (l :: rest).length ∧
            (l :: rest).getD (m - n) "" ≠ "") ↔
          (n + 1 ≤ m ∧ m - (n + 1) < rest.length ∧
            rest.getD (m - (n + 1)) "" ≠ "") := by
        rw [hmn]
        simp only [List.getD_cons_succ, List.length_cons]
        constructor
        · rintro ⟨_, h2, h3⟩; exact ⟨by omega, by omega, h3⟩
        · rintro ⟨_, h2, h3⟩; exact ⟨by omega, by omega, h3⟩
      by_cases h : n + 1 ≤ m ∧ m - (n + 1) < rest.length ∧
          rest.getD (m - (n + 1)) "" ≠ ""
      · rw [if_pos h, if_pos (hcond.mpr h), hmn, List.getD_cons_succ]
      · rw [if_neg h, if_neg (fun hc => h (hcond.mp hc))]
        by_cases hl : l = ""
        · simp [hl]
        · simp [hl, show m ≠ n by omega]

/-- Bounds of an optional bounded conversion result. -/
theorem getD_bind_if_bound {o : Option Nat} {P : Nat → Prop} [DecidablePred P]
    {v : Nat → Int} (h : ∀ n, P n → -(2 ^ 31 : Int) ≤ v n ∧ v n < 2 ^ 31 + 1) :
    -(2 ^ 31 : Int) ≤ (o.bind fun n => if P n then some (v n) else none).getD 0 ∧
      (o.bind fun n => if P n then some (v n) else none).getD 0 < 2 ^ 31 + 1 := by
  rcases o with _ | n
  · simp
  · show -(2 ^ 31 : Int) ≤ (if P n then some (v n) else none).getD 0 ∧
      (if P n then some (v n) else none).getD 0 < 2 ^ 31 + 1
    by_cases hp : P n
    · simpa [hp] using h n hp
    · simp [hp]

/-- `QString::toInt` values fit in a 32-bit `int`, hence below `2^32`. -/
theorem qToInt_bounds (str : String) :
    -(2 ^ 31 : Int) ≤ qToInt str ∧ qToInt str < 2 ^ 31 + 1 := by
  unfold qToInt qToIntOpt
  split
  · norm_num
  · split
    · exact getD_bind_if_bound fun n hn => by constructor <;> omega
    · split
      · exact getD_bind_if_bound fun n hn => by constructor <;> omega
      · exact getD_bind_if_bound fun n hn => by constructor <;> omega

/-- `quint32` narrowing is the identity on `int` values representable
in 32 unsigned bits. -/
theorem u32OfInt_nonneg (z : Int) (h0 : 0 ≤ z) (h1 : z < 4294967296) :
    u32OfInt z = z.toNat := by
  unfold u32OfInt
  rw [show z.emod 4294967296 = z % 4294967296 from rfl,
    Int.emod_eq_of_lt h0 h1]

/-- `filterMap` of a guarded `some` is `map` after `filter`. -/
theorem filterMap_ite {α β : Type} (P : α → Prop) [DecidablePred P]
    (F : α → β) (l : List α) :
    (l.filterMap fun a => if P a then none else some (F a)) =
      (l.filter fun a => decide (¬ P a)).map F := by
  induction l with
  | nil => simp
  | cons a t ih => by_cases h : P a <;> simp [h, ih]

/--
C2 (amended): for a channel-connectivity reply of the fixed 126 possible
channels whose non-blank entries all parse to *strictly positive*
integers, configuration retrieval produces exactly one electrode per
non-blank entry, whose `index` fields are the parsed integers in
physical-channel order, and a strictly increasing row-selection index
set of exactly `k + 1` members: the `k` connected positions plus the
fixed auxiliary row 130.  (The positivity hypothesis is forced by the
use of `find(m_electrodeIndices > 0)` in the code: an entry parsing to `0` is
counted as connected but excluded from the row selection.)
-/
theorem getConfiguration_characterization (s : HState) (env : CfgEnv)
    (hto : env.chTimeout = false)
    (herr : qStartsWith env.chReply "Error" = false)
    (hfile : env.electrodeFileExists = true)
    (hlen : (channelLines env.chReply).length = 126)
    (hpos : ∀ i < 126, (channelLines env.chReply).getD i "" ≠ "" →
      0 < qToInt ((channelLines env.chReply).getD i "")) :
    (getConfigurationFromServer s env).channelIndices =
      ((List.range 126).filter
        (fun i => (channelLines env.chReply).getD i "" ≠ "")) ++ [130] ∧
    (getConfigurationFromServer s env).channelIndices.length =
      ((List.range 126).filter
        (fun i => (channelLines env.chReply).getD i "" ≠ "")).length + 1 ∧
    List.Pairwise (· < ·) (getConfigurationFromServer s env).channelIndices ∧
    (getConfigurationFromServer s env).configuration.length =
      ((List.range 126).filter
        (fun i => (channelLines env.chReply).getD i "" ≠ "")).length ∧
    (getConfigurationFromServer s env).configuration.map (·.index) =
      ((List.range 126).filter
        (fun i => (channelLines env.chReply).getD i "" ≠ "")).map
        (fun i => (qToInt ((channelLines env.chReply).getD i "")).toNat) := by
  have hs' : getConfigurationFromServer s env =
      { s with
        electrodeIndices :=
          applyLines baseElectrodeIndices 0 (channelLines env.chReply)
        nchannels :=
          ((channelLines env.chReply).filter (fun l => l ≠ "")).length
        channelIndices :=
          (List.range 131).filter
            (fun i => 0 <
              applyLines baseElectrodeIndices 0 (channelLines env.chReply) i)
        configuration :=
          buildConfig
            (applyLines baseElectrodeIndices 0 (channelLines env.chReply))
            (splitChar nlChar env.electrodeFileContent) } := by
    unfold getConfigurationFromServer
    rw [hto, hfile, herr]
    simp only [Bool.false_eq_true, if_false, if_true]
  have hidx : ∀ m,
      applyLines baseElectrodeIndices 0 (channelLines env.chReply) m =
        if m < 126 ∧ (channelLines env.chReply).getD m "" ≠ "" then
          qToInt ((channelLines env.chReply).getD m "")
        else if m = 130 then 1 else -1 := by
    intro m
    rw [applyLines_apply]
    simp only [Nat.zero_le, true_and, Nat.sub_zero, hlen]
    rfl
  have hptwise : ∀ i ∈ List.range 126,
      (decide (0 <
        applyLines baseElectrodeIndices 0 (channelLines env.chReply) i)) =
      (decide ((channelLines env.chReply).getD i "" ≠ "")) := by
    intro i hi
    rw [List.mem_range] at hi
    by_cases hb : (channelLines env.chReply).getD i "" ≠ ""
    · rw [hidx i, if_pos ⟨hi, hb⟩, decide_eq_true (hpos i hi hb),
        decide_eq_true hb]
    · rw [hidx i, if_neg (fun hc => hb hc.2), if_neg (by omega),
        decide_eq_false hb, decide_eq_false (by omega)]
  have hfilterIdx :
      (List.range 131).filter
        (fun i => decide (0 <
          applyLines baseElectrodeIndices 0 (channelLines env.chReply) i)) =
      ((List.range 126).filter
        (fun i => (channelLines env.chReply).getD i "" ≠ "")) ++ [130] := by
    rw [show (131 : Nat) = 130 + 1 from rfl, List.range_succ,
      show (130 : Nat) = 129 + 1 from rfl, List.range_succ,
      show (129 : Nat) = 128 + 1 from rfl, List.range_succ,
      show (128 : Nat) = 127 + 1 from rfl, List.range_succ,
      show (127 : Nat) = 126 + 1 from rfl, List.range_succ]
    simp only [List.filter_append, List.filter_cons, List.filter_nil]
    rw [List.filter_congr hptwise]
    have h126 : applyLines baseElectrodeIndices 0 (channelLines env.chReply)
        126 = -1 := by rw [hidx]; simp
    have h127 : applyLines baseElectrodeIndices 0 (channelLines env.chReply)
        127 = -1 := by rw [hidx]; simp
    have h128 : applyLines baseElectrodeIndices 0 (channelLines env.chReply)
        128 = -1 := by rw [hidx]; simp
    have h129 : applyLines baseElectrodeIndices 0 (channelLines env.chReply)
        129 = -1 := by rw [hidx]; simp
    have h130 : applyLines baseElectrodeIndices 0 (channelLines env.chReply)
        130 = 1 := by rw [hidx]; simp
    rw [h126, h127, h128, h129, h130]
    simp
  have hchIdx : (getConfigurationFromServer s env).channelIndices =
      ((List.range 126).filter
        (fun i => (channelLines env.chReply).getD i "" ≠ "")) ++ [130] := by
    rw [hs']
    exact hfilterIdx
  have hcfgList :
      buildConfig (applyLines baseElectrodeIndices 0 (channelLines env.chReply))
        (splitChar nlChar env.electrodeFileContent) =
      ((List.range 126).filter
        (fun i => (channelLines env.chReply).getD i "" ≠ "")).map
        (fun i => electrodeOfIndex (splitChar nlChar env.electrodeFileContent)
          (applyLines baseElectrodeIndices 0 (channelLines env.chReply) i)) := by
    unfold buildConfig
    rw [filterMap_ite]
    congr 1
    apply List.filter_congr
    intro i hi
    rw [List.mem_range] at hi
    by_cases hb : (channelLines env.chReply).getD i "" ≠ ""
    · have h0 : 0 < qToInt ((channelLines env.chReply).getD i "") :=
        hpos i hi hb
      rw [hidx i, if_pos ⟨hi, hb⟩,
        decide_eq_true (show ¬ qToInt ((channelLines env.chReply).getD i "")
          = -1 by omega),
        decide_eq_true hb]
    · rw [hidx i, if_neg (fun hc => hb hc.2), if_neg (by omega),
        decide_eq_false (not_not_intro rfl), decide_eq_false hb]
  have hcfg : (getConfigurationFromServer s env).configuration =
      ((List.range 126).filter
        (fun i => (channelLines env.chReply).getD i "" ≠ "")).map
        (fun i => electrodeOfIndex (splitChar nlChar env.electrodeFileContent)
          (applyLines baseElectrodeIndices 0 (channelLines env.chReply) i)) := by
    rw [hs']
    exact hcfgList
  refine ⟨hchIdx, ?_, ?_, ?_, ?_⟩
  · rw [hchIdx]
    simp
  · rw [hchIdx]
    have hsub : ((List.range 126).filter
          (fun i => (channelLines env.chReply).getD i "" ≠ "")) ++ [130] =
        (List.range 131).filter
          (fun i => decide (0 <
            applyLines baseElectrodeIndices 0 (channelLines env.chReply) i)) :=
      hfilterIdx.symm
    rw [hsub]
    exact List.Pairwise.sublist (List.filter_sublist _)
      (List.pairwise_lt_range 131)
  · rw [hcfg]
    simp
  · rw [hcfg, List.map_map]
    apply List.map_congr_left
    intro i hi
    rw [List.mem_filter] at hi
    obtain ⟨hir, hbdec⟩ := hi
    rw [List.mem_range] at hir
    have hb : (channelLines env.chReply).getD i "" ≠ "" :=
      of_decide_eq_true hbdec
    have h0 := hpos i hir hb
    have hbnd := qToInt_bounds ((channelLines env.chReply).getD i "")
    show u32OfInt
      (applyLines baseElectrodeIndices 0 (channelLines env.chReply) i) = _
    rw [hidx i, if_pos ⟨hir, hb⟩]
    exact u32OfInt_nonneg _ (by omega) (by omega)

/-- A concrete channel report whose single non-blank entry is `"0"`:
channel 0 is connected to electrode index 0. -/
def cfgEnvZero : CfgEnv :=
  { chTimeout := false
    chReply := String.mk ('0' :: List.replicate 125 nlChar)
    electrodeFileExists := true
    electrodeFileContent := "0 0 0 0 0 0" }

set_option maxHeartbeats 2000000 in
set_option maxRecDepth 10000 in
/--
C2 counterexample: for the reply whose one non-blank entry parses to
`0` (so `k = 1`), the row-selection index set contains only the
auxiliary row: `find(m_electrodeIndices > 0)` excludes the connected
position holding electrode index `0`, so the set has `k` members, not
the `k + 1` the claim asserts (while the configuration still receives
the electrode, in index order).
-/
theorem getConfiguration_rowset_claim_false :
    ((channelLines cfgEnvZero.chReply).filter (fun l => l ≠ "")).length = 1 ∧
    (getConfigurationFromServer initialHState cfgEnvZero).configuration.map
      (·.index) = [0] ∧
    (getConfigurationFromServer initialHState cfgEnvZero).channelIndices =
      [130] ∧
    (getConfigurationFromServer initialHState cfgEnvZero).channelIndices.length
      ≠ 1 + 1 := by
  decide

/-- A concrete channel report whose single non-blank entry is `"17"`. -/
def cfgEnvSeventeen : CfgEnv :=
  { chTimeout := false
    chReply := String.mk ('1' :: '7' :: List.replicate 125 nlChar)
    electrodeFileExists := true
    electrodeFileContent := "" }

/-- The connected positions of the `"17"` report. -/
def connSeventeen : List Nat :=
  (List.range 126).filter
    (fun i => (channelLines cfgEnvSeventeen.chReply).getD i "" ≠ "")

set_option maxHeartbeats 2000000 in
set_option maxRecDepth 10000 in
/-- Witness for C2 at the concrete `"17"` report. -/
theorem getConfiguration_characterization_witness :
    (cfgEnvSeventeen.chTimeout = false ∧
      qStartsWith cfgEnvSeventeen.chReply "Error" = false ∧
      cfgEnvSeventeen.electrodeFileExists = true ∧
      (channelLines cfgEnvSeventeen.chReply).length = 126 ∧
      (∀ i < 126, (channelLines cfgEnvSeventeen.chReply).getD i "" ≠ "" →
        0 < qToInt ((channelLines cfgEnvSeventeen.chReply).getD i ""))) ∧
    ((getConfigurationFromServer initialHState cfgEnvSeventeen).channelIndices =
        connSeventeen ++ [130] ∧
      (getConfigurationFromServer initialHState
          cfgEnvSeventeen).channelIndices.length =
        connSeventeen.length + 1 ∧
      List.Pairwise (· < ·)
        (getConfigurationFromServer initialHState
          cfgEnvSeventeen).channelIndices ∧
      (getConfigurationFromServer initialHState
          cfgEnvSeventeen).configuration.length = connSeventeen.length ∧
      (getConfigurationFromServer initialHState
          cfgEnvSeventeen).configuration.map (·.index) =
        connSeventeen.map
          (fun i =>
            (qToInt ((channelLines cfgEnvSeventeen.chReply).getD i "")).toNat)) :=
  ⟨⟨rfl, by decide, rfl, by decide, by decide⟩,
    getConfiguration_characterization initialHState cfgEnvSeventeen rfl
      (by decide) rfl (by decide) (by decide)⟩

/-! ## Binary frame decode (`hidens-source.cc` lines 331–371)

One emit-frame read drains `m_bytesPerEmitFrame = S * 131` bytes into
the column-major `m_acqBuffer` (131 rows = channels, `S` columns =
samples), so byte `c * 131 + r` is row `r` of sample `c`. -/

/-- Raw byte of channel row `r` at sample column `c`. -/
def acqByte (raw : List Nat) (r c : Nat) : Nat :=
  raw.getD (c * 131 + r) 0 % 256

/-- The buffer after the photodiode decode
`x = (x & 0x08) ? 255 : 0` applied to the last row (130). -/
def acqDecoded (raw : List Nat) (r c : Nat) : Nat :=
  if r = 130 then (if acqByte raw 130 c &&& 8 = 0 then 0 else 255)
  else acqByte raw r c

/-- The emitted matrix
`conv_to<Mat<qint16>>(m_acqBuffer.rows(m_channelIndices).t() * qint16(-1))`:
the scalar `-1` is converted to the element type `uchar` of the buffer
(i.e. `255`), so each selected byte `x` becomes `x * 255 mod 256` in
unsigned 8-bit arithmetic and is then widened (without sign extension)
to a 16-bit sample.  After the transpose the outer list ranges over the
`S` sample columns, the inner list over the selected channel rows. -/
def hidensEmitFrame (raw : List Nat) (chIdx : List Nat) (sampleCount : Nat) :
    List (List Int) :=
  (List.range sampleCount).map fun c =>
    chIdx.map fun r => ((acqDecoded raw r c * 255) % 256 : Nat)

/-- The emitted matrix as the claim describes it: the rows at the
connected-channel indices plus the auxiliary row, in order, transposed
to (channels, samples), with the sign of every sample negated.  (Stated from
the wording of the claim, for comparison with `hidensEmitFrame`.) -/
def claimedEmitFrame (raw : List Nat) (chIdx : List Nat)
    (sampleCount : Nat) : List (List Int) :=
  chIdx.map fun r =>
    (List.range sampleCount).map fun c => -(acqDecoded raw r c : Int)

/-- A concrete two-sample raw buffer: sample 0 has byte `1` on
channel 0, sample 1 has byte `2` on channel 0, all other bytes `0`. -/
def rawTwoSamples : List Nat :=
  (1 :: List.replicate 130 0) ++ (2 :: List.replicate 130 0)

set_option maxRecDepth 10000 in
set_option maxHeartbeats 1000000 in
/--
C3 counterexample: selecting only channel row 0 from the concrete
two-sample buffer, the code emits `[[255], [254]]` — shaped
(samples, channels), with each byte negated modulo 256 and widened
unsigned — whereas the description in the claim (rows transposed to
(channels, samples) with the sign negated) yields `[[-1, -2]]`.
-/
theorem hidensEmitFrame_claim_false :
    hidensEmitFrame rawTwoSamples [0] 2 = [[255], [254]] ∧
    claimedEmitFrame rawTwoSamples [0] 2 = [[-1, -2]] ∧
    hidensEmitFrame rawTwoSamples [0] 2 ≠
      claimedEmitFrame rawTwoSamples [0] 2 := by
  decide

set_option maxRecDepth 10000 in
set_option maxHeartbeats 1000000 in
/--
C3 (amended): the decoded auxiliary sample (row 130 of the acquisition
buffer) equals 255 exactly when bit 3 of its raw byte is set and 0 when
clear, and the emitted `SampleFrame` selects exactly the rows at the
supplied channel indices (the connected channels plus the auxiliary
row), in order, transposed to *(samples, channels)*, with every byte
`x` emitted as the unsigned 8-bit negation `(-x) mod 256` (so the
set auxiliary sample appears as `1`, and no emitted value is negative).
-/
theorem hidensEmitFrame_characterization (raw : List Nat)
    (chIdx : List Nat) (sampleCount : Nat) :
    (∀ c, acqDecoded raw 130 c =
      if Nat.testBit (acqByte raw 130 c) 3 then 255 else 0) ∧
    hidensEmitFrame raw chIdx sampleCount =
      (List.range sampleCount).map (fun c =>
        chIdx.map fun r => (-(acqDecoded raw r c : Int)) % 256) := by
  constructor
  · intro c
    unfold acqDecoded
    rw [if_pos rfl]
    rcases Nat.lt_or_ge (acqByte raw 130 c) 256 with h | h
    · have : ∀ x < 256, ((if x &&& 8 = 0 then 0 else 255) =
          if Nat.testBit x 3 then 255 else 0) := by decide
      exact this _ h
    · exact absurd (Nat.mod_lt _ (by norm_num) : raw.getD (c * 131 + 130) 0
        % 256 < 256) (by unfold acqByte at h; omega)
  · unfold hidensEmitFrame
    apply List.map_congr_left
    intro c _
    apply List.map_congr_left
    intro r _
    have hlt : acqDecoded raw r c < 256 := by
      unfold acqDecoded acqByte
      split
      · split <;> norm_num
      · exact Nat.mod_lt _ (by norm_num)
    have : ∀ x < 256, (((x * 255) % 256 : Nat) : Int) = (-(x : Int)) % 256 := by
      decide
    exact this _ hlt

/-! ## `set("plug", n)` (`hidens-source.cc` lines 114–161) -/

/-- The `(param, success, message)` payload of the `setResponse`
signal. -/
structure SetReply where
  param : String
  success : Bool
  msg : String
  deriving DecidableEq, Repr

/-- The wrong-state message of `set`, naming the required state. -/
def msgSetWrongState : String :=
  "Can only set parameters while in the " ++ apos ++ "initialized" ++ apos ++
    " state."

/-- "The plug value was not an integer or outside the allowed range
[0, 4]." -/
def msgPlugRange : String :=
  "The plug value was not an integer or outside the allowed range [0, 4]."

/-- "The requested plug does not contain a chip." -/
def msgPlugNoChip : String :=
  "The requested plug does not contain a chip."

/-- "The chip in the requested plug appears invalid." -/
def msgChipInvalid : String :=
  "The chip in the requested plug appears invalid."

/-- Environment of one plug selection: the replies to the `select` and
`id` commands (`none` = reply timeout, which escalates through
`handleError` inside `getHidensReply`), and the environment of the
configuration query run after a successful selection. -/
structure PlugEnv where
  selectReply : Option String
  idReply : Option String
  configEnv : CfgEnv

/-- The `param == "plug"` branch of `HidensSource::set` (including the
settable-parameter and state preamble of `set`): validate the value
(`QVariant::toUInt` modelled as `Option Nat`), `select` the slot,
verify a chip id, and on success store slot and id, report success and
fetch the configuration.  Every failure except an invalid id in a
*received* reply resets `m_plug` to the unset sentinel; the
invalid-id path leaves the previously stored plug in place. -/
def hidensSetPlug (s : HState) (v : Option Nat) (env : PlugEnv) :
    HState × SetReply :=
  if s.state ≠ "initialized" then
    (s, ⟨"plug", false, msgSetWrongState⟩)
  else
    match v with
    | none => ({ s with plug := unsetU32 }, ⟨"plug", false, msgPlugRange⟩)
    | some p =>
      if 4 < p then
        ({ s with plug := unsetU32 }, ⟨"plug", false, msgPlugRange⟩)
      else
        match env.selectReply with
        | none =>
          ({ hidensHandleError s with plug := unsetU32 },
            ⟨"plug", false, msgPlugNoChip⟩)
        | some r =>
          if qStartsWith r "Error" then
            ({ s with plug := unsetU32 }, ⟨"plug", false, msgPlugNoChip⟩)
          else
            match env.idReply with
            | none => (hidensHandleError s, ⟨"plug", false, msgChipInvalid⟩)
            | some rid =>
              match qToUIntOpt rid with
              | none => (s, ⟨"plug", false, msgChipInvalid⟩)
              | some id =>
                if id = 65535 then
                  (s, ⟨"plug", false, msgChipInvalid⟩)
                else
                  (getConfigurationFromServer
                    { s with plug := p, chipId := id } env.configEnv,
                    ⟨"plug", true, ""⟩)

/-- A state with plug 2 already selected, used as the counterexample
starting point. -/
def statePlugTwo : HState :=
  { initialHState with state := "initialized", plug := 2, chipId := 7 }

/--
C8 counterexample: with plug 2 already stored, `set("plug", 3)` whose
`select` succeeds but whose `id` reply is the no-chip value `65535`
reports failure — yet leaves `m_plug = 2`: the invalid-chip-id failure
path does not reset the stored plug slot to the unset sentinel, contrary
to the claim that every failure path does.
-/
theorem hidensSetPlug_invalid_id_keeps_plug :
    (hidensSetPlug statePlugTwo (some 3)
        ⟨some "3", some "65535", cfgEnvZero⟩).2.success = false ∧
    (hidensSetPlug statePlugTwo (some 3)
        ⟨some "3", some "65535", cfgEnvZero⟩).1.plug = 2 ∧
    (hidensSetPlug statePlugTwo (some 3)
        ⟨some "3", some "65535", cfgEnvZero⟩).1.plug ≠ unsetU32 := by
  decide

/--
C8 (amended): in `set("plug", n)` from the `initialized` state: a
non-integer or out-of-range value, and an error reply or timeout on the
`select` command, reset the stored plug slot to the unset sentinel and
report failure; an invalid or absent chip identifier in a *received*
`id` reply reports failure but leaves the stored slot unchanged (an
`id` timeout resets it as part of the error-handling transition); only
when the select succeeds and a valid chip id is returned are the slot
and chip id stored, the request reported as succeeded, and the
electrode configuration fetched from the server.
-/
theorem hidensSetPlug_characterization (s : HState) (v : Option Nat)
    (env : PlugEnv) (hst : s.state = "initialized") :
    (v = none →
      hidensSetPlug s v env =
        ({ s with plug := unsetU32 }, ⟨"plug", false, msgPlugRange⟩)) ∧
    (∀ p, v = some p → 4 < p →
      hidensSetPlug s v env =
        ({ s with plug := unsetU32 }, ⟨"plug", false, msgPlugRange⟩)) ∧
    (∀ p, v = some p → p ≤ 4 → env.selectReply = none →
      hidensSetPlug s v env =
        ({ hidensHandleError s with plug := unsetU32 },
          ⟨"plug", false, msgPlugNoChip⟩)) ∧
    (∀ p r, v = some p → p ≤ 4 → env.selectReply = some r →
      qStartsWith r "Error" = true →
      hidensSetPlug s v env =
        ({ s with plug := unsetU32 }, ⟨"plug", false, msgPlugNoChip⟩)) ∧
    (∀ p r rid, v = some p → p ≤ 4 → env.selectReply = some r →
      qStartsWith r "Error" = false → env.idReply = some rid →
      (qToUIntOpt rid = none ∨ qToUIntOpt rid = some 65535) →
      hidensSetPlug s v env = (s, ⟨"plug", false, msgChipInvalid⟩)) ∧
    (∀ p r rid id, v = some p → p ≤ 4 → env.selectReply = some r →
      qStartsWith r "Error" = false → env.idReply = some rid →
      qToUIntOpt rid = some id → id ≠ 65535 →
      hidensSetPlug s v env =
        (getConfigurationFromServer { s with plug := p, chipId := id }
          env.configEnv, ⟨"plug", true, ""⟩)) := by
  have hst' : ¬ s.state ≠ "initialized" := fun hc => hc hst
  refine ⟨?_, ?_, ?_, ?_, ?_, ?_⟩
  · rintro rfl
    unfold hidensSetPlug
    rw [if_neg hst']
  · rintro p rfl hp
    unfold hidensSetPlug
    rw [if_neg hst']
    simp only [if_pos hp]
  · rintro p rfl hp hsel
    unfold hidensSetPlug
    rw [if_neg hst', hsel]
    simp only [if_neg (by omega : ¬ 4 < p)]
  · rintro p r rfl hp hsel herr
    unfold hidensSetPlug
    rw [if_neg hst', hsel]
    simp only [if_neg (by omega : ¬ 4 < p), herr, if_true]
  · rintro p r rid rfl hp hsel herr hid hbad
    unfold hidensSetPlug
    rw [if_neg hst', hsel, hid]
    simp only [if_neg (by omega : ¬ 4 < p), herr, Bool.false_eq_true,
      if_false]
    rcases hbad with hb | hb <;> rw [hb]
    all_goals simp
  · rintro p r rid id rfl hp hsel herr hid hok hneq
    unfold hidensSetPlug
    rw [if_neg hst', hsel, hid]
    simp only [if_neg (by omega : ¬ 4 < p), herr, Bool.false_eq_true,
      if_false, hok, if_neg hneq]

set_option maxRecDepth 10000 in
set_option maxHeartbeats 1000000 in
/-- Witness for C8: a successful plug selection at concrete inputs. -/
theorem hidensSetPlug_characterization_witness :
    statePlugTwo.state = "initialized" ∧
    hidensSetPlug statePlugTwo (some 3)
        ⟨some "3", some "128", cfgEnvSeventeen⟩ =
      (getConfigurationFromServer
        { statePlugTwo with plug := 3, chipId := 128 } cfgEnvSeventeen,
        ⟨"plug", true, ""⟩) :=
  ⟨rfl,
    (hidensSetPlug_characterization statePlugTwo (some 3)
        ⟨some "3", some "128", cfgEnvSeventeen⟩ rfl).2.2.2.2.2
      3 "3" "128" 128 rfl (by decide) rfl (by decide) rfl (by decide)
      (by decide)⟩

/-! ## Configuration upload (`hidens-source.cc` lines 443–496) -/

/-- Environment of one FPGA upload: whether the connection succeeds
within its timeout, whether the configuration file exists, the bytes of
the file, and the successive results of the socket writes (`none` models
a write error, `some t` a partial write of `t` bytes). -/
structure FpgaEnv where
  connectOk : Bool
  fileExists : Bool
  fileData : List Nat
  writeGrants : List (Option Nat)

/-- The partial-write retry loop of `sendConfigToFpga`: keep writing
until the full length is written or a write returns `-1`.  A grant
stream that ends before the write completes is modelled as failure
(the C++ loop would keep calling `write`; the environments of interest
supply enough grants). -/
def writeLoop (total : Nat) : Nat → List (Option Nat) → Bool
  | nw, grants =>
    if total ≤ nw then true
    else
      match grants with
      | [] => false
      | none :: _ => false
      | some t :: rest => writeLoop total (nw + t) rest

/-- `HidensSource::sendConfigToFpga` (static, run on a worker): connect
with a 10 s timeout, read the configuration file, write it fully, and
return `(success, file_path)`.  A connection failure or a missing file
fails the task. -/
def sendConfigToFpga (env : FpgaEnv) (file : String) : Bool × String :=
  if ¬ env.connectOk then (false, file)
  else if ¬ env.fileExists then (false, file)
  else (writeLoop env.fileData.length 0 env.writeGrants, file)

/-- `HidensSource::handleConfigSendResponse`: on task success, store the
returned file path and refresh the configuration from the server (the
source performs the query twice); on failure, clear the stored
configuration-file path.  Either way a `setResponse` for
`"configuration"` is emitted with the success flag of the task. -/
def handleConfigSendResponse (s : HState) (result : Bool × String)
    (env1 env2 : CfgEnv) : HState × SetReply :=
  if result.1 then
    (getConfigurationFromServer
      (getConfigurationFromServer { s with configurationFile := result.2 }
        env1) env2,
      ⟨"configuration", true, ""⟩)
  else
    ({ s with configurationFile := "" },
      ⟨"configuration", false, "Could not send the configuration to the server."⟩)

/--
C9: when the upload task completes successfully the owning source
refreshes its configuration from the server (the completion handler
re-runs `getConfigurationFromServer` on the state holding the path of
the uploaded file) and the originating request is reported as succeeded
(via a `setResponse` carrying `success = true`); when the task fails —
in particular when it cannot connect or the file is missing, which
force the task result `(false, file)` — the stored configuration-file
path is cleared and the request is reported as failed with the fixed
message "Could not send the configuration to the server.".
-/
theorem handleConfigSendResponse_contract (s : HState) (env : FpgaEnv)
    (file : String) (env1 env2 : CfgEnv) :
    ((sendConfigToFpga env file).1 = true →
      handleConfigSendResponse s (sendConfigToFpga env file) env1 env2 =
        (getConfigurationFromServer
          (getConfigurationFromServer { s with configurationFile := file }
            env1) env2,
          ⟨"configuration", true, ""⟩)) ∧
    (env.connectOk = false ∨ env.fileExists = false →
      sendConfigToFpga env file = (false, file)) ∧
    ((sendConfigToFpga env file).1 = false →
      handleConfigSendResponse s (sendConfigToFpga env file) env1 env2 =
        ({ s with configurationFile := "" },
          ⟨"configuration", false,
            "Could not send the configuration to the server."⟩)) := by
  have hsnd : (sendConfigToFpga env file).2 = file := by
    unfold sendConfigToFpga
    split
    · rfl
    · split <;> rfl
  refine ⟨?_, ?_, ?_⟩
  · intro hok
    unfold handleConfigSendResponse
    rw [if_pos hok, hsnd]
  · rintro (hc | hf)
    · unfold sendConfigToFpga
      rw [if_pos (by rw [hc]; decide)]
    · unfold sendConfigToFpga
      by_cases hcc : env.connectOk
      · rw [if_neg (by rw [hcc]; decide), if_pos (by rw [hf]; decide)]
      · rw [if_pos (by simpa using hcc)]
  · intro hfail
    unfold handleConfigSendResponse
    rw [if_neg (by rw [hfail]; decide)]

set_option maxRecDepth 10000 in
set_option maxHeartbeats 1000000 in
/-- Witness for C9: a failed upload (no connection) at concrete inputs
clears the stored path and reports the fixed failure message. -/
theorem handleConfigSendResponse_contract_witness :
    (sendConfigToFpga ⟨false, true, [1, 2], [some 2]⟩ "conf.cmdraw.nrk2" =
        (false, "conf.cmdraw.nrk2")) ∧
    handleConfigSendResponse
        { initialHState with configurationFile := "conf.cmdraw.nrk2" }
        (sendConfigToFpga ⟨false, true, [1, 2], [some 2]⟩ "conf.cmdraw.nrk2")
        cfgEnvSeventeen cfgEnvSeventeen =
      ({ initialHState with configurationFile := "" },
        ⟨"configuration", false,
          "Could not send the configuration to the server."⟩) :=
  ⟨(handleConfigSendResponse_contract
      { initialHState with configurationFile := "conf.cmdraw.nrk2" }
      ⟨false, true, [1, 2], [some 2]⟩ "conf.cmdraw.nrk2"
      cfgEnvSeventeen cfgEnvSeventeen).2.1 (Or.inl rfl),
    (handleConfigSendResponse_contract
      { initialHState with configurationFile := "conf.cmdraw.nrk2" }
      ⟨false, true, [1, 2], [some 2]⟩ "conf.cmdraw.nrk2"
      cfgEnvSeventeen cfgEnvSeventeen).2.2 (by decide)⟩
